import Mathlib

/-
  Verification development for whacked/atc-sensor-mqtt-relay (src/relay.go).

  Shallow embedding conventions:
  * Go strings are modelled as lists of Unicode code points (`GoStr := List Nat`);
    `goStr` converts a Lean string literal to this representation.
  * Go `[]byte` values are lists of `Fin 256`.
  * Go `map[string]T` values are association lists with insert-or-replace
    (`mapUpsert`) and first-match lookup (`mapLookup`); Go map writes replace
    the existing entry for a key, and lookup of an absent key yields the zero
    value, modelled with `Option` / `getD`.
  * `log.Fatalf` terminates the process: modelled as the `GoOutcome.fatal`
    outcome.  A runtime panic (index out of range, mqtt connect panic) is
    modelled as `GoOutcome.panicked`.  Both abort the whole process.
  * `strings.ToLower` is modelled on the ASCII range (the inputs in this
    program are hardware addresses and firmware names); Unicode lowercasing
    never produces an ASCII upper-case letter either, so the facts proved
    about lower-cased keys transfer.
  * `float32` arithmetic is modelled with exact rational arithmetic; at every
    value this development evaluates (e.g. 250/10) the float computation is
    exact, so the model agrees with the code there.
-/

/-- Go strings as lists of code points. -/
abbrev GoStr : Type := List Nat

/-- Bytes of a Go byte slice. -/
abbrev GoByte : Type := Fin 256

/-- Convert a Lean string literal to the `GoStr` model. -/
def goStr (s : String) : GoStr := s.data.map Char.toNat

/-- ASCII lowercasing of one code point, as Go `strings.ToLower` acts on
the addresses and names this program handles. -/
def toLowerChar (c : Nat) : Nat := if 65 ≤ c ∧ c ≤ 90 then c + 32 else c

/-- Model of Go `strings.ToLower`. -/
def goToLower (s : GoStr) : GoStr := s.map toLowerChar

/-- relay.go:22 `environmentUUID = "181a"`. -/
def environmentUUID : GoStr := goStr "181a"

/-- relay.go:23 `temperatureUUID = "2a1f"`. -/
def temperatureUUID : GoStr := goStr "2a1f"

/-- relay.go:24 `humidityUUID = "2a6f"`. -/
def humidityUUID : GoStr := goStr "2a6f"

/-- relay.go:26 `batteryServiceUUID = "180f"`. -/
def batteryServiceUUID : GoStr := goStr "180f"

/-- Character class `[0-9A-Z]` of the ATC regex. -/
def isAtcClassChar (c : Nat) : Bool := (48 ≤ c && c ≤ 57) || (65 ≤ c && c ≤ 90)

/-- Does the regex `ATC_[0-9A-Z]+` match at the head of the string?
Code points: A=65, T=84, C=67, _=95. -/
def atcMatchAt : GoStr → Bool
  | 65 :: 84 :: 67 :: 95 :: c :: _ => isAtcClassChar c
  | _ => false

/-- relay.go:29 `atcDeviceRegex`: Go `regexp.MatchString` is unanchored, so the
pattern `ATC_[0-9A-Z]+` matches iff it matches at some position. -/
def atcMatchString (s : GoStr) : Bool := s.tails.any atcMatchAt

/-- Character class `[0-9A-Fa-f]` of the MAC-address regex. -/
def isHexChar (c : Nat) : Bool :=
  (48 ≤ c && c ≤ 57) || (65 ≤ c && c ≤ 70) || (97 ≤ c && c ≤ 102)

/-- Does `([0-9A-Fa-f]{2}:){5}[0-9A-Fa-f]{2}` match at the head of the string?
Code point of the colon is 58. -/
def macMatchAt : GoStr → Bool
  | a1 :: a2 :: c1 :: b1 :: b2 :: c2 :: d1 :: d2 :: c3 ::
      e1 :: e2 :: c4 :: f1 :: f2 :: c5 :: g1 :: g2 :: _ =>
    isHexChar a1 && isHexChar a2 && (c1 == 58) &&
    isHexChar b1 && isHexChar b2 && (c2 == 58) &&
    isHexChar d1 && isHexChar d2 && (c3 == 58) &&
    isHexChar e1 && isHexChar e2 && (c4 == 58) &&
    isHexChar f1 && isHexChar f2 && (c5 == 58) &&
    isHexChar g1 && isHexChar g2
  | _ => false

/-- relay.go:30 `macAddressRegex`, unanchored match. -/
def macMatchString (s : GoStr) : Bool := s.tails.any macMatchAt

/-- relay.go:52 `sensorInfo`. -/
structure sensorInfo where
  sensorName : GoStr
  mqttTopic : GoStr
deriving DecidableEq, Repr

instance : Inhabited sensorInfo := ⟨⟨[], []⟩⟩

/-- Go association-list map model. -/
abbrev GoMap (α : Type) : Type := List (GoStr × α)

/-- First-match lookup in the map model. -/
def mapLookup {α : Type} : GoMap α → GoStr → Option α
  | [], _ => none
  | (k0, v0) :: rest, k => if k0 = k then some v0 else mapLookup rest k

/-- Go map assignment `m[k] = v`: replace the entry if the key is present,
append it otherwise. -/
def mapUpsert {α : Type} (m : GoMap α) (k : GoStr) (v : α) : GoMap α :=
  if m.any (fun kv => kv.1 = k) then
    m.map (fun kv => if kv.1 = k then (k, v) else kv)
  else
    m ++ [(k, v)]

/-- The keys of a map, in entry order. -/
def mapKeys {α : Type} (m : GoMap α) : List GoStr := m.map (fun kv => kv.1)

/-- Outcome of running a piece of Go code that can terminate the process:
`fatal` models `log.Fatalf` (process exit), `panicked` models a runtime
panic.  Both abort the whole process, not just the current device. -/
inductive GoOutcome (α : Type) where
  | ok (a : α)
  | fatal (msg : GoStr)
  | panicked
deriving DecidableEq, Repr

/-- Extract the success value of an outcome, if any. -/
def outcomeOk {α : Type} : GoOutcome α → Option α
  | .ok a => some a
  | _ => none

example : goStr "181a" = [49, 56, 49, 97] := by decide
example : atcMatchString (goStr "xATC_1y") = true := by decide
example : atcMatchString (goStr "atc_1") = false := by decide
example : macMatchString (goStr "a4:c1:38:0c:5b:45") = true := by decide

/-- One section of the devices.ini file: the section name and its
key/value pairs. -/
structure IniSection where
  name : GoStr
  keys : GoMap GoStr
deriving DecidableEq, Repr

/-- relay.go:57-108 `loadKnownSensors`, iterating over the sections
(recursion over the remaining sections, accumulating the map).  A missing
`sensorname` or `topic` key is `log.Fatalf` (process exit). -/
def loadKnownSensorsAux : List IniSection → GoMap sensorInfo → GoOutcome (GoMap sensorInfo)
  | [], acc => .ok acc
  | s :: rest, acc =>
    let addressOrName := s.name
    if ¬ (macMatchString (goToLower addressOrName) = true) ∧
        ¬ (atcMatchString addressOrName = true) then
      loadKnownSensorsAux rest acc
    else
      match mapLookup s.keys (goStr "sensorname") with
      | none => .fatal (goStr "cant get sensor name")
      | some sensorName =>
        match mapLookup s.keys (goStr "topic") with
        | none => .fatal (goStr "cant get MQTT topic")
        | some mqttTopic =>
          loadKnownSensorsAux rest
            (mapUpsert acc (goToLower addressOrName)
              ⟨goToLower sensorName, mqttTopic⟩)

/-- relay.go:57 `loadKnownSensors`. -/
def loadKnownSensors (sections : List IniSection) : GoOutcome (GoMap sensorInfo) :=
  loadKnownSensorsAux sections []

/-- A BLE advertisement as the scan callback sees it: an address and a
local name. -/
structure Advertisement where
  addr : GoStr
  localName : GoStr
deriving DecidableEq, Repr

/-- relay.go:141-153, the body of the scan callback: look the device up by
lower-cased address first, then by (un-normalized) local name; on a hit
record it in `foundDevices` under the matching key. -/
def scanCallback (knownSensors : GoMap sensorInfo) (foundDevices : GoMap sensorInfo)
    (a : Advertisement) : GoMap sensorInfo :=
  let deviceAddress := goToLower a.addr
  match mapLookup knownSensors deviceAddress with
  | some info => mapUpsert foundDevices deviceAddress info
  | none =>
    match mapLookup knownSensors a.localName with
    | some info => mapUpsert foundDevices a.localName info
    | none => foundDevices

/-- The scan delivers a sequence of advertisements to the callback;
`foundDevices` starts empty (relay.go:129). -/
def scanAdvertisements (knownSensors : GoMap sensorInfo)
    (ads : List Advertisement) : GoMap sensorInfo :=
  ads.foldl (scanCallback knownSensors) []

/-- go-ble `ble.CharRead` property flag (bit 1, value 0x02). -/
def CharRead : Nat := 2

/-- One GATT characteristic as seen through the session: its UUID, its
property bits, and what `cln.ReadCharacteristic` would return for it
(`none` models a read error). -/
structure BleCharacteristic where
  uuid : GoStr
  property : Nat
  readResult : Option (List GoByte)
deriving DecidableEq, Repr

/-- One GATT service of the discovered profile. -/
structure BleService where
  uuid : GoStr
  characteristics : List BleCharacteristic
deriving DecidableEq, Repr

/-- The payload map assembled by `readCharacteristics` / `getDeviceData`.
The Go code uses `map[string]interface{}` with the five fixed keys below,
so a record of optional fields is a faithful model; an absent key is
`none`. -/
structure Payload where
  temperature : Option ℚ := none
  humidity : Option Nat := none
  timestamp : Option ℚ := none
  address : Option GoStr := none
  sensorname : Option GoStr := none
deriving DecidableEq, Repr

/-- relay.go:270-272 `parseLittleEndianValue`: unconditionally indexes
`b[0]` and `b[1]`; `none` models the index-out-of-range panic on a slice
shorter than two bytes. -/
def parseLittleEndianValue (b : List GoByte) : Option Nat :=
  match b with
  | b0 :: b1 :: _ => some (b0.val ||| (b1.val <<< 8))
  | _ => none

/-- relay.go:284-304, the per-characteristic body of `readCharacteristics`:
skip non-readable characteristics, print-and-continue on a read error,
decode temperature as `float32(raw)/10` and humidity as `raw/100`
(unsigned 16-bit integer division, truncating).  `none` models a panic
inside `parseLittleEndianValue`. -/
def processCharacteristic (payload : Payload) (c : BleCharacteristic) : Option Payload :=
  if c.property &&& CharRead ≠ 0 then
    match c.readResult with
    | none => some payload
    | some b =>
      if c.uuid = temperatureUUID then
        match parseLittleEndianValue b with
        | none => none
        | some raw => some { payload with temperature := some ((raw : ℚ) / 10) }
      else if c.uuid = humidityUUID then
        match parseLittleEndianValue b with
        | none => none
        | some raw => some { payload with humidity := some (raw / 100) }
      else some payload
  else some payload

/-- relay.go:276-307, the per-service body of `readCharacteristics`:
services other than environment sensing and battery are skipped; after
the characteristics of an accepted service, the timestamp
`time.Now().UnixMilli() / 1000.0` is stamped (`nowMs` is the clock
reading in milliseconds). -/
def processService (nowMs : ℤ) (payload : Payload) (s : BleService) : Option Payload :=
  if s.uuid ≠ environmentUUID ∧ s.uuid ≠ batteryServiceUUID then some payload
  else
    match s.characteristics.foldlM processCharacteristic payload with
    | none => none
    | some p => some { p with timestamp := some ((nowMs : ℚ) / 1000) }

/-- relay.go:274-310 `readCharacteristics`. -/
def readCharacteristics (nowMs : ℤ) (services : List BleService) : Option Payload :=
  services.foldlM (processService nowMs) {}

/-- Events of one `getDeviceData` call, in order, used to state teardown
properties: the trace records session-open, profile discovery, the
`cln.CancelConnection()` call and the `<-done` wait for the disconnect
notification. -/
inductive DevEvent where
  | connected
  | profileDiscovered
  | cancelConnection
  | awaitedDisconnect
deriving DecidableEq, Repr

/-- The environment one `getDeviceData` call runs against: what
`ble.Connect` yields, the client address, what `DiscoverProfile` yields,
and the clock. -/
structure DeviceEnv where
  connectResult : Except GoStr Unit
  clnAddr : GoStr
  discoverResult : Except GoStr (List BleService)
  nowMs : ℤ

/-- relay.go:227-268 `getDeviceData`.  Returns the event trace (everything
that happened before the function would return) and the outcome.  On
connect failure it calls `log.Fatalf` (relay.go:235; the `return nil, err`
after it is dead code), on discovery failure it calls `log.Fatalf`
(relay.go:253); both exit the process, modelled as `.fatal`.  A panic in
`readCharacteristics` propagates as `.panicked`. -/
def getDeviceData (env : DeviceEnv) (info : sensorInfo) :
    List DevEvent × GoOutcome Payload :=
  match env.connectResult with
  | .error _ => ([], .fatal (goStr "failed to connect"))
  | .ok _ =>
    match env.discoverResult with
    | .error _ => ([.connected], .fatal (goStr "cant discover profile"))
    | .ok services =>
      match readCharacteristics env.nowMs services with
      | none => ([.connected, .profileDiscovered], .panicked)
      | some payload =>
        ([.connected, .profileDiscovered, .cancelConnection, .awaitedDisconnect],
          .ok { payload with
                  address := some env.clnAddr,
                  sensorname := some info.sensorName })

/-- relay.go:170-179, the polling loop of `main`: for each found device,
poll it; on success store the payload keyed by the topic looked up from
`knownSensors` (a missing entry yields the zero value, i.e. the empty
topic); `log.Fatalf` or a panic inside `getDeviceData` aborts the whole
process. -/
def pollLoop (knownSensors : GoMap sensorInfo) (envs : GoStr → DeviceEnv) :
    List (GoStr × sensorInfo) → GoMap Payload → GoOutcome (GoMap Payload)
  | [], payloads => .ok payloads
  | (deviceName, info) :: rest, payloads =>
    match getDeviceData (envs deviceName) info with
    | (_, .ok payload) =>
      let topic := ((mapLookup knownSensors deviceName).getD default).mqttTopic
      pollLoop knownSensors envs rest (mapUpsert payloads topic payload)
    | (_, .fatal m) => .fatal m
    | (_, .panicked) => .panicked

/-- Actions issued against the MQTT client. -/
inductive MqttAction where
  | connect
  | publish (topic : GoStr) (payload : Payload)
  | disconnect (gracePeriodMs : Nat)
deriving DecidableEq, Repr

/-- Is an action a publish call? -/
def isPublish : MqttAction → Bool
  | .publish _ _ => true
  | _ => false

/-- Is an action a publish call to the given topic? -/
def isPublishTo (k : GoStr) : MqttAction → Bool
  | .publish t _ => decide (t = k)
  | _ => false

/-- relay.go:183-222, the publish phase of `main`: only entered when the
payload collection is non-empty; connect once (a failed connect panics,
relay.go:205), publish each payload to its key, then disconnect with a
1000 ms grace period.  Returns the actions issued and the outcome. -/
def publishPhase (connectOk : Bool) (payloads : GoMap Payload) :
    List MqttAction × GoOutcome Unit :=
  if payloads.length > 0 then
    if connectOk then
      ([MqttAction.connect] ++
        payloads.map (fun kv => MqttAction.publish kv.1 kv.2) ++
        [MqttAction.disconnect 1000], .ok ())
    else ([MqttAction.connect], .panicked)
  else ([], .ok ())

/-- Why the scan terminated, as `errors.Cause` classifies it in `chkErr`:
no error, `context.DeadlineExceeded`, `context.Canceled`, or anything
else. -/
inductive ScanTermination where
  | success
  | deadlineExceeded
  | canceled
  | other (msg : GoStr)
deriving DecidableEq, Repr

/-- What `chkErr` decides: carry on, or `log.Fatalf`. -/
inductive CycleStatus where
  | proceed
  | fatalExit (msg : GoStr)
deriving DecidableEq, Repr

/-- relay.go:331-341 `chkErr`: nil, deadline and cancellation fall
through (the latter two print "done" / "canceled"); anything else is
`log.Fatalf`. -/
def chkErr : ScanTermination → CycleStatus
  | .success => .proceed
  | .deadlineExceeded => .proceed
  | .canceled => .proceed
  | .other m => .fatalExit m

/-- Everything one run of `main` consumes from the outside world. -/
structure World where
  sections : List IniSection
  advertisements : List Advertisement
  scanTermination : ScanTermination
  deviceEnvs : GoStr → DeviceEnv
  mqttConnectOk : Bool

/-- relay.go:110-225 `main`, one discover-poll-publish cycle: load the
registry (fatal on error, clean exit with no actions when empty), scan
and match (the callback has run on every advertisement when `chkErr`
inspects the scan error), exit cleanly when nothing matched, poll each
matched device, then run the publish phase.  Result: the MQTT actions
issued, or the abnormal termination. -/
def runCycle (w : World) : GoOutcome (List MqttAction) :=
  match loadKnownSensors w.sections with
  | .fatal m => .fatal m
  | .panicked => .panicked
  | .ok knownSensors =>
    if knownSensors.length = 0 then .ok []
    else
      let foundDevices := scanAdvertisements knownSensors w.advertisements
      match chkErr w.scanTermination with
      | .fatalExit m => .fatal m
      | .proceed =>
        if foundDevices.length = 0 then .ok []
        else
          match pollLoop knownSensors w.deviceEnvs foundDevices [] with
          | .fatal m => .fatal m
          | .panicked => .panicked
          | .ok payloads =>
            match publishPhase w.mqttConnectOk payloads with
            | (actions, .ok _) => .ok actions
            | (_, .fatal m) => .fatal m
            | (_, .panicked) => .panicked

/-- Is an action the connect call? -/
def isConnect : MqttAction → Bool
  | .connect => true
  | _ => false

/-- The key an advertisement would be recorded under by the scan callback,
if any: the lower-cased address when that is registered, otherwise the raw
local name when that is registered. -/
def matchedKey (reg : GoMap sensorInfo) (a : Advertisement) : Option GoStr :=
  if (mapLookup reg (goToLower a.addr)).isSome then some (goToLower a.addr)
  else if (mapLookup reg a.localName).isSome then some a.localName
  else none

/-- Does an advertisement write the key `k` into the found-devices map? -/
def hitsKey (reg : GoMap sensorInfo) (k : GoStr) (a : Advertisement) : Bool :=
  decide (matchedKey reg a = some k)

theorem parseLittleEndianValue_cons (b0 b1 : GoByte) (rest : List GoByte) :
    parseLittleEndianValue (b0 :: b1 :: rest) = some (b0.val + 256 * b1.val) := by
  have hb : b0.val < 2 ^ 8 := b0.isLt
  have h : b0.val ||| (b1.val <<< 8) = b0.val + 256 * b1.val := by
    rw [Nat.shiftLeft_eq, Nat.mul_comm b1.val, Nat.lor_comm,
      ← Nat.mul_add_lt_is_or hb b1.val]
    omega
  simp [parseLittleEndianValue, h]

theorem mapLookup_append {α : Type} (m1 m2 : GoMap α) (k : GoStr) :
    mapLookup (m1 ++ m2) k =
      match mapLookup m1 k with
      | some v => some v
      | none => mapLookup m2 k := by
  induction m1 with
  | nil => simp [mapLookup]
  | cons kv rest ih =>
    obtain ⟨k0, v0⟩ := kv
    by_cases h : k0 = k <;> simp [mapLookup, h, ih]

theorem mapLookup_eq_none_of_not_any {α : Type} (m : GoMap α) (k : GoStr)
    (h : m.any (fun kv => kv.1 = k) = false) : mapLookup m k = none := by
  induction m with
  | nil => rfl
  | cons kv rest ih =>
    obtain ⟨k0, v0⟩ := kv
    simp only [List.any_cons, Bool.or_eq_false_iff] at h
    have hk : ¬ (k0 = k) := by simpa using h.1
    simp [mapLookup, hk, ih h.2]

theorem mapLookup_mapReplace {α : Type} (m : GoMap α) (k k' : GoStr) (v : α) :
    mapLookup (m.map (fun kv => if kv.1 = k then (k, v) else kv)) k' =
      if k' = k then (if m.any (fun kv => kv.1 = k) then some v else none)
      else mapLookup m k' := by
  induction m with
  | nil => simp [mapLookup]
  | cons kv rest ih =>
    obtain ⟨k0, v0⟩ := kv
    simp only [List.map_cons]
    by_cases h0 : k0 = k
    · have hany : (((k0, v0) :: rest).any (fun kv => kv.1 = k)) = true := by simp [h0]
      rw [if_pos h0, hany]
      by_cases h1 : k' = k
      · rw [if_pos h1]
        have hk : k = k' := h1.symm
        simp [mapLookup, hk]
      · rw [if_neg h1]
        have hk : ¬ (k = k') := fun hc => h1 hc.symm
        have hk0 : ¬ (k0 = k') := h0 ▸ hk
        simp [mapLookup, hk, h1, hk0, ih]
    · have hany : (((k0, v0) :: rest).any (fun kv => kv.1 = k)) =
          rest.any (fun kv => kv.1 = k) := by simp [h0]
      rw [if_neg h0, hany]
      by_cases h1 : k0 = k'
      · have hk : ¬ (k' = k) := fun hc => h0 (h1.trans hc)
        rw [if_neg hk]
        simp [mapLookup, h1]
      · simp [mapLookup, h1, ih]

theorem mapLookup_mapUpsert {α : Type} (m : GoMap α) (k k' : GoStr) (v : α) :
    mapLookup (mapUpsert m k v) k' = if k' = k then some v else mapLookup m k' := by
  unfold mapUpsert
  cases hany : m.any (fun kv => kv.1 = k) with
  | true => simp [mapLookup_mapReplace, hany]
  | false =>
    simp only [Bool.false_eq_true, if_false, mapLookup_append]
    by_cases hk : k' = k
    · subst hk
      rw [mapLookup_eq_none_of_not_any m k' hany]
      simp [mapLookup]
    · have hk2 : ¬ (k = k') := fun hc => hk hc.symm
      cases h : mapLookup m k' <;> simp [mapLookup, hk, hk2, h]

theorem mem_mapKeys_iff_any {α : Type} (m : GoMap α) (k : GoStr) :
    k ∈ mapKeys m ↔ m.any (fun kv => kv.1 = k) = true := by
  simp [mapKeys, List.any_eq_true]

theorem mapLookup_isSome_iff_mem {α : Type} (m : GoMap α) (k : GoStr) :
    (mapLookup m k).isSome = true ↔ k ∈ mapKeys m := by
  induction m with
  | nil => simp [mapLookup, mapKeys]
  | cons kv rest ih =>
    obtain ⟨k0, v0⟩ := kv
    by_cases h : k0 = k
    · subst h; simp [mapLookup, mapKeys]
    · have h2 : ¬ (k = k0) := fun hc => h hc.symm
      simp [mapLookup, mapKeys, h, h2, ih]

theorem mapKeys_mapReplace {α : Type} (m : GoMap α) (k : GoStr) (v : α) :
    mapKeys (m.map (fun kv => if kv.1 = k then (k, v) else kv)) = mapKeys m := by
  induction m with
  | nil => rfl
  | cons kv rest ih =>
    obtain ⟨k0, v0⟩ := kv
    simp only [mapKeys, List.map_cons] at ih ⊢
    by_cases h0 : k0 = k
    · rw [if_pos h0]
      simp [ih, h0]
    · rw [if_neg h0]
      simp [ih]

theorem mapKeys_mapUpsert {α : Type} (m : GoMap α) (k : GoStr) (v : α) :
    mapKeys (mapUpsert m k v) =
      if m.any (fun kv => kv.1 = k) then mapKeys m else mapKeys m ++ [k] := by
  unfold mapUpsert
  cases hany : m.any (fun kv => kv.1 = k) with
  | true => simp [mapKeys_mapReplace]
  | false => simp [mapKeys]

theorem nodup_mapKeys_mapUpsert {α : Type} (m : GoMap α) (k : GoStr) (v : α)
    (h : (mapKeys m).Nodup) : (mapKeys (mapUpsert m k v)).Nodup := by
  rw [mapKeys_mapUpsert]
  cases hany : m.any (fun kv => kv.1 = k) with
  | true => simpa using h
  | false =>
    have hnot : ¬ k ∈ mapKeys m := by
      rw [mem_mapKeys_iff_any, hany]; simp
    simp [List.nodup_append, h, hnot]

theorem perm_any_eq {α : Type} {l1 l2 : List α} (h : l1.Perm l2) (p : α → Bool) :
    l1.any p = l2.any p := by
  cases hb : l2.any p with
  | true =>
    rw [List.any_eq_true] at hb ⊢
    obtain ⟨x, hx, hp⟩ := hb
    exact ⟨x, h.mem_iff.mpr hx, hp⟩
  | false =>
    rw [List.any_eq_false] at hb ⊢
    intro x hx
    exact hb x (h.mem_iff.mp hx)

theorem mapLookup_scanCallback (reg m : GoMap sensorInfo) (a : Advertisement) (k : GoStr) :
    mapLookup (scanCallback reg m a) k =
      if matchedKey reg a = some k then mapLookup reg k else mapLookup m k := by
  unfold scanCallback matchedKey
  cases h1 : mapLookup reg (goToLower a.addr) with
  | some info =>
    simp only [h1, Option.isSome_some, if_true, mapLookup_mapUpsert]
    by_cases hk : k = goToLower a.addr
    · subst hk; simp [h1]
    · have hk2 : ¬ (goToLower a.addr = k) := fun hc => hk hc.symm
      simp [hk, hk2]
  | none =>
    simp only [h1, Option.isSome_none, Bool.false_eq_true, if_false]
    cases h2 : mapLookup reg a.localName with
    | some info =>
      simp only [Option.isSome_some, if_true, mapLookup_mapUpsert]
      by_cases hk : k = a.localName
      · subst hk; simp [h2]
      · have hk2 : ¬ (a.localName = k) := fun hc => hk hc.symm
        simp [hk, hk2]
    | none => simp

theorem mapLookup_scan_foldl (reg : GoMap sensorInfo) (ads : List Advertisement)
    (m : GoMap sensorInfo) (k : GoStr) :
    mapLookup (ads.foldl (scanCallback reg) m) k =
      if ads.any (hitsKey reg k) then mapLookup reg k else mapLookup m k := by
  induction ads generalizing m with
  | nil => simp
  | cons a rest ih =>
    rw [List.foldl_cons, ih]
    by_cases ha : matchedKey reg a = some k
    · simp [List.any_cons, hitsKey, ha, mapLookup_scanCallback]
    · simp [List.any_cons, hitsKey, ha, mapLookup_scanCallback]

theorem pollLoop_lookup_isSome_mono (reg : GoMap sensorInfo) (envs : GoStr → DeviceEnv)
    (devices : List (GoStr × sensorInfo)) (init m : GoMap Payload) (k : GoStr)
    (h : pollLoop reg envs devices init = .ok m)
    (hk : (mapLookup init k).isSome = true) : (mapLookup m k).isSome = true := by
  induction devices generalizing init with
  | nil =>
    simp only [pollLoop] at h
    cases h
    exact hk
  | cons d rest ih =>
    obtain ⟨deviceName, info⟩ := d
    simp only [pollLoop] at h
    rcases hgd : getDeviceData (envs deviceName) info with ⟨tr, out⟩
    rw [hgd] at h
    cases out with
    | ok payload =>
      refine ih _ h ?_
      rw [mapLookup_mapUpsert]
      by_cases hkk : k = ((mapLookup reg deviceName).getD default).mqttTopic
      · simp [hkk]
      · simp [hkk, hk]
    | fatal msg => cases h
    | panicked => cases h

theorem pollLoop_nodup_keys (reg : GoMap sensorInfo) (envs : GoStr → DeviceEnv)
    (devices : List (GoStr × sensorInfo)) (init m : GoMap Payload)
    (hn : (mapKeys init).Nodup) (h : pollLoop reg envs devices init = .ok m) :
    (mapKeys m).Nodup := by
  induction devices generalizing init with
  | nil =>
    simp only [pollLoop] at h
    cases h
    exact hn
  | cons d rest ih =>
    obtain ⟨deviceName, info⟩ := d
    simp only [pollLoop] at h
    rcases hgd : getDeviceData (envs deviceName) info with ⟨tr, out⟩
    rw [hgd] at h
    cases out with
    | ok payload => exact ih _ (nodup_mapKeys_mapUpsert _ _ _ hn) h
    | fatal msg => cases h
    | panicked => cases h

theorem pollLoop_topic_recorded (reg : GoMap sensorInfo) (envs : GoStr → DeviceEnv)
    (devices : List (GoStr × sensorInfo)) (init m : GoMap Payload)
    (deviceName : GoStr) (info : sensorInfo)
    (h : pollLoop reg envs devices init = .ok m)
    (hmem : (deviceName, info) ∈ devices) :
    (mapLookup m ((mapLookup reg deviceName).getD default).mqttTopic).isSome = true := by
  induction devices generalizing init with
  | nil => cases hmem
  | cons d rest ih =>
    obtain ⟨n0, i0⟩ := d
    simp only [pollLoop] at h
    rcases hgd : getDeviceData (envs n0) i0 with ⟨tr, out⟩
    rw [hgd] at h
    cases out with
    | ok payload =>
      rcases List.mem_cons.mp hmem with hhead | htail
      · obtain ⟨hn, hi⟩ := Prod.mk.injEq .. ▸ hhead
        subst hn
        refine pollLoop_lookup_isSome_mono reg envs rest _ m _ h ?_
        rw [mapLookup_mapUpsert]
        simp
      · exact ih _ h htail
    | fatal msg => cases h
    | panicked => cases h

theorem toLowerChar_not_upper (c : Nat) :
    ¬ (65 ≤ toLowerChar c ∧ toLowerChar c ≤ 90) := by
  unfold toLowerChar
  split <;> omega

theorem goToLower_no_upper (s : GoStr) (c : Nat) (hc : c ∈ goToLower s) :
    ¬ (65 ≤ c ∧ c ≤ 90) := by
  unfold goToLower at hc
  rcases List.mem_map.mp hc with ⟨c0, _, rfl⟩
  exact toLowerChar_not_upper c0

theorem atcMatchAt_mem (t : GoStr) (h : atcMatchAt t = true) : 65 ∈ t := by
  unfold atcMatchAt at h
  split at h
  · simp
  · cases h

theorem atcMatchString_mem (name : GoStr) (h : atcMatchString name = true) :
    65 ∈ name := by
  unfold atcMatchString at h
  rcases List.any_eq_true.mp h with ⟨t, ht, hmatch⟩
  have hsuffix : t <:+ name := (List.mem_tails t name).mp ht
  exact hsuffix.subset (atcMatchAt_mem t hmatch)

theorem loadKnownSensorsAux_keys_no_upper (sections : List IniSection)
    (acc reg : GoMap sensorInfo)
    (hacc : ∀ k ∈ mapKeys acc, ∀ c ∈ k, ¬ (65 ≤ c ∧ c ≤ 90))
    (h : loadKnownSensorsAux sections acc = .ok reg) :
    ∀ k ∈ mapKeys reg, ∀ c ∈ k, ¬ (65 ≤ c ∧ c ≤ 90) := by
  induction sections generalizing acc with
  | nil =>
    simp only [loadKnownSensorsAux] at h
    cases h
    exact hacc
  | cons s rest ih =>
    simp only [loadKnownSensorsAux] at h
    split at h
    · exact ih _ hacc h
    · cases hsn : mapLookup s.keys (goStr "sensorname") with
      | none => rw [hsn] at h; cases h
      | some sensorName =>
        rw [hsn] at h
        cases htp : mapLookup s.keys (goStr "topic") with
        | none => rw [htp] at h; cases h
        | some mqttTopic =>
          rw [htp] at h
          refine ih _ ?_ h
          intro k hk c hc
          rw [mapKeys_mapUpsert] at hk
          by_cases hany : acc.any (fun kv => kv.1 = goToLower s.name)
          · rw [if_pos hany] at hk
            exact hacc k hk c hc
          · rw [if_neg hany] at hk
            rcases List.mem_append.mp hk with hk1 | hk2
            · exact hacc k hk1 c hc
            · have hkey : k = goToLower s.name := List.mem_singleton.mp hk2
              subst hkey
              exact goToLower_no_upper s.name c hc

theorem countP_isPublishTo_map (m : GoMap Payload) (k : GoStr) :
    (m.map (fun kv => MqttAction.publish kv.1 kv.2)).countP (isPublishTo k) =
      (mapKeys m).countP (fun k0 => k0 = k) := by
  induction m with
  | nil => rfl
  | cons kv rest ih =>
    obtain ⟨k0, v0⟩ := kv
    simp only [List.map_cons, List.countP_cons, mapKeys]
    simp only [mapKeys] at ih
    rw [ih]
    by_cases h : k0 = k
    · subst h; simp [isPublishTo]
    · simp [isPublishTo, h]

theorem countP_eq_one_of_nodup_mem (l : List GoStr) (k : GoStr)
    (hn : l.Nodup) (hm : k ∈ l) : l.countP (fun k0 => k0 = k) = 1 := by
  induction l with
  | nil => cases hm
  | cons b t ih =>
    rw [List.countP_cons]
    rcases List.mem_cons.mp hm with hk | hk
    · subst hk
      have hnot : k ∉ t := (List.nodup_cons.mp hn).1
      have hz : t.countP (fun k0 => decide (k0 = k)) = 0 :=
        List.countP_eq_zero.mpr (fun x hx => by
          simp only [decide_eq_true_eq]
          exact fun hc => hnot (hc ▸ hx))
      simp [hz]
    · have h1 : t.countP (fun k0 => decide (k0 = k)) = 1 :=
        ih (List.nodup_cons.mp hn).2 hk
      have hb : ¬ (b = k) := fun hc => (List.nodup_cons.mp hn).1 (hc ▸ hk)
      simp [h1, hb]

theorem countP_publishPhase (m : GoMap Payload) (k : GoStr) :
    ((publishPhase true m).1).countP (isPublishTo k) =
      (mapKeys m).countP (fun k0 => k0 = k) := by
  by_cases h : m.length > 0
  · have h1 : (publishPhase true m).1 =
        [MqttAction.connect] ++ m.map (fun kv => MqttAction.publish kv.1 kv.2) ++
          [MqttAction.disconnect 1000] := by
      unfold publishPhase
      rw [if_pos h, if_pos rfl]
    rw [h1, List.countP_append, List.countP_append, countP_isPublishTo_map]
    simp [isPublishTo, List.countP_cons]
  · have hm : m = [] := List.length_eq_zero.mp (by omega)
    subst hm; rfl

theorem parseLittleEndianValue_short (b : List GoByte) (hb : b.length < 2) :
    parseLittleEndianValue b = none := by
  cases b with
  | nil => rfl
  | cons b0 t =>
    cases t with
    | nil => rfl
    | cons b1 r => simp only [List.length_cons] at hb; omega

theorem processCharacteristic_short (p : Payload) (b : List GoByte) (hb : b.length < 2) :
    processCharacteristic p ⟨temperatureUUID, CharRead, some b⟩ = none := by
  simp [processCharacteristic, CharRead, parseLittleEndianValue_short b hb]

theorem readCharacteristics_short (nowMs : ℤ) (b : List GoByte)
    (rest : List BleCharacteristic) (hb : b.length < 2) :
    readCharacteristics nowMs
      [⟨environmentUUID, ⟨temperatureUUID, CharRead, some b⟩ :: rest⟩] = none := by
  simp [readCharacteristics, processService, List.foldlM,
    processCharacteristic_short _ _ hb]

/-- Address fixture: first known device. -/
def addr1 : GoStr := goStr "aa:bb:cc:dd:ee:01"

/-- Address fixture: second known device. -/
def addr2 : GoStr := goStr "aa:bb:cc:dd:ee:02"

/-- Sensor-info fixture routed to topic temperature/room. -/
def infoDesk : sensorInfo := ⟨goStr "desk", goStr "temperature/room"⟩

/-- Sensor-info fixture routed to the same topic as `infoDesk`. -/
def infoShelf : sensorInfo := ⟨goStr "shelf", goStr "temperature/room"⟩

/-- Registry fixture with two devices sharing one topic. -/
def regTwo : GoMap sensorInfo := [(addr1, infoDesk), (addr2, infoShelf)]

/-- Device environment whose session open (`ble.Connect`) fails. -/
def envConnectFail : DeviceEnv := ⟨.error (goStr "timeout"), addr1, .ok [], 0⟩

/-- Device environment whose profile discovery fails after the session
opened. -/
def envDiscoverFail : DeviceEnv := ⟨.ok (), addr1, .error (goStr "timeout"), 0⟩

/-- Device environment exposing only a temperature characteristic
(raw bytes 0xFA 0x00, little-endian 250). -/
def envTempOnly : DeviceEnv :=
  ⟨.ok (), addr1, .ok [⟨environmentUUID,
    [⟨temperatureUUID, CharRead, some [0xFA, 0x00]⟩]⟩], 0⟩

/-- Device environment exposing temperature (250) and humidity (10000)
characteristics. -/
def envBothMeasures : DeviceEnv :=
  ⟨.ok (), addr1, .ok [⟨environmentUUID,
    [⟨temperatureUUID, CharRead, some [0xFA, 0x00]⟩,
     ⟨humidityUUID, CharRead, some [0x10, 0x27]⟩]⟩], 0⟩

/-- Device environment whose discovery yields no services at all. -/
def envNoServices : DeviceEnv := ⟨.ok (), addr1, .ok [], 7⟩

/-- C1: the claim says a session-open or discovery failure aborts only that
device, surfacing the error and letting the loop continue; the code instead
calls `log.Fatalf` in both cases (relay.go:235 and relay.go:253), which
terminates the whole process — the `return nil, err` after the first
`log.Fatalf` and the `err != nil` branch of the polling loop in `main`
(relay.go:176-178) are dead code showing the claimed behaviour was the
intent.  Evaluated at a failing input: a connect failure for the first of
two devices makes the whole polling loop fatal (the second device is never
polled), and a discovery failure is fatal as well. -/
theorem connect_failure_is_fatal_process_exit :
    (getDeviceData envConnectFail infoDesk).2 = .fatal (goStr "failed to connect") ∧
    (getDeviceData envDiscoverFail infoDesk).2 = .fatal (goStr "cant discover profile") ∧
    pollLoop regTwo (fun _ => envConnectFail) [(addr1, infoDesk), (addr2, infoShelf)] [] =
      .fatal (goStr "failed to connect") :=
  ⟨rfl, rfl, rfl⟩

/-- C5: on every path on which `getDeviceData` returns to its caller
(outcome `.ok`), the recorded event trace contains the
`cln.CancelConnection()` call followed by the await of the disconnect
notification — the session is torn down, disconnect awaited, before the
function returns, whatever the discovered services and the outcomes of the
characteristic reads were. -/
theorem session_teardown_before_return (env : DeviceEnv) (info : sensorInfo)
    (trace : List DevEvent) (p : Payload)
    (h : getDeviceData env info = (trace, .ok p)) :
    [DevEvent.cancelConnection, DevEvent.awaitedDisconnect].Sublist trace := by
  unfold getDeviceData at h
  cases hc : env.connectResult with
  | error e => rw [hc] at h; simp at h
  | ok u =>
    rw [hc] at h
    cases hd : env.discoverResult with
    | error e => rw [hd] at h; simp at h
    | ok services =>
      rw [hd] at h
      dsimp only at h
      cases hr : readCharacteristics env.nowMs services with
      | none => rw [hr] at h; simp at h
      | some payload =>
        rw [hr] at h
        injection h with h1 h2
        rw [← h1]
        decide

/-- C5 witness: a concrete device environment (session opens, discovery
yields no services) on which `getDeviceData` returns, with the teardown
events in its trace. -/
theorem session_teardown_before_return_witness :
    getDeviceData envNoServices infoDesk =
      ([DevEvent.connected, DevEvent.profileDiscovered, DevEvent.cancelConnection,
        DevEvent.awaitedDisconnect],
        .ok { address := some addr1, sensorname := some (goStr "desk") }) ∧
    [DevEvent.cancelConnection, DevEvent.awaitedDisconnect].Sublist
      [DevEvent.connected, DevEvent.profileDiscovered, DevEvent.cancelConnection,
        DevEvent.awaitedDisconnect] :=
  ⟨rfl, session_teardown_before_return envNoServices infoDesk _ _ rfl⟩

/-- C7: when the payload collection is empty the publish phase issues no
MQTT actions at all — in particular zero connect calls and zero publish
calls — whatever the broker would have answered. -/
theorem empty_collection_no_broker_actions :
    ∀ connectOk : Bool,
      publishPhase connectOk [] = ([], .ok ()) ∧
      ((publishPhase connectOk []).1).countP isConnect = 0 ∧
      ((publishPhase connectOk []).1).countP isPublish = 0 := by
  decide

/-- C2 counterexample: a device whose profile exposes only a temperature
characteristic (no humidity) nevertheless gets a message added to the
publish collection — the collection's entry for its topic exists and has
no humidity measurement — and the publish phase publishes it.  The claim
that a device missing either measurement produces no message is false. -/
theorem message_published_without_humidity :
    ((outcomeOk (pollLoop regTwo (fun _ => envTempOnly) [(addr1, infoDesk)] [])).bind
        (fun m => mapLookup m (goStr "temperature/room"))).map Payload.humidity =
      some none ∧
    (outcomeOk (pollLoop regTwo (fun _ => envTempOnly) [(addr1, infoDesk)] [])).map
        (fun m => ((publishPhase true m).1).countP isPublish) = some 1 :=
  ⟨rfl, rfl⟩

/-- C2 (amended): emission is conditioned on the poll returning, not on the
measurements present: for every device of the polling loop, when the loop
completes normally the publish collection has an entry at that device's
topic, whether or not temperature and humidity were both decoded.  (There
is no both-measurements check anywhere in relay.go: `readCharacteristics`
stores whatever it could read and `main` keys the result by topic
unconditionally.) -/
theorem message_recorded_for_every_polled_device (reg : GoMap sensorInfo)
    (envs : GoStr → DeviceEnv) (devices : List (GoStr × sensorInfo))
    (m : GoMap Payload) (deviceName : GoStr) (info : sensorInfo)
    (h : pollLoop reg envs devices [] = .ok m)
    (hmem : (deviceName, info) ∈ devices) :
    (mapLookup m ((mapLookup reg deviceName).getD default).mqttTopic).isSome = true :=
  pollLoop_topic_recorded reg envs devices [] m deviceName info h hmem

/-- The payload collection of the concrete temperature-only run. -/
def mTempOnly : GoMap Payload :=
  (outcomeOk (pollLoop regTwo (fun _ => envTempOnly) [(addr1, infoDesk)] [])).getD []

/-- C2 witness: the amended theorem applied to the concrete
temperature-only device run. -/
theorem message_recorded_for_every_polled_device_witness :
    (mapLookup mTempOnly ((mapLookup regTwo addr1).getD default).mqttTopic).isSome = true :=
  message_recorded_for_every_polled_device regTwo (fun _ => envTempOnly)
    [(addr1, infoDesk)] mTempOnly addr1 infoDesk (by rfl) (by simp)

/-- C4 counterexample: two distinct matched devices, both yielding
temperature and humidity, whose routing metadata assigns them the same
topic, produce a single published message, not two: `main` keys the
payload collection by topic (relay.go:175), so the second device's message
overwrites the first. -/
theorem shared_topic_collapses_to_single_publish :
    (outcomeOk (pollLoop regTwo (fun _ => envBothMeasures)
          [(addr1, infoDesk), (addr2, infoShelf)] [])).map
        (fun m => ((publishPhase true m).1).countP isPublish) = some 1 :=
  rfl

/-- C4 (amended): messages are keyed by topic, so there is exactly one
outbound message per distinct topic of the successfully polled devices — a
device's message overwrites an earlier message with the same topic — and
each message in the final collection is published exactly once: for every
topic present in the collection, the publish phase issues exactly one
publish call to it. -/
theorem one_publish_per_recorded_topic (reg : GoMap sensorInfo)
    (envs : GoStr → DeviceEnv) (devices : List (GoStr × sensorInfo))
    (m : GoMap Payload) (k : GoStr)
    (h : pollLoop reg envs devices [] = .ok m)
    (hk : (mapLookup m k).isSome = true) :
    ((publishPhase true m).1).countP (isPublishTo k) = 1 := by
  rw [countP_publishPhase]
  exact countP_eq_one_of_nodup_mem (mapKeys m) k
    (pollLoop_nodup_keys reg envs devices [] m (by simp [mapKeys]) h)
    ((mapLookup_isSome_iff_mem m k).mp hk)

/-- The payload collection of the concrete shared-topic run. -/
def mShared : GoMap Payload :=
  (outcomeOk (pollLoop regTwo (fun _ => envBothMeasures)
    [(addr1, infoDesk), (addr2, infoShelf)] [])).getD []

/-- C4 witness: the amended theorem applied to the concrete shared-topic
run. -/
theorem one_publish_per_recorded_topic_witness :
    ((publishPhase true mShared).1).countP (isPublishTo (goStr "temperature/room")) = 1 :=
  one_publish_per_recorded_topic regTwo (fun _ => envBothMeasures)
    [(addr1, infoDesk), (addr2, infoShelf)] mShared (goStr "temperature/room")
    (by rfl) (by rfl)

/-- C3: each raw characteristic value is decoded as a little-endian
unsigned 16-bit field (`b[0] + 256*b[1]`); a temperature read stores
`raw / 10` with the fractional tenth kept (exact rational model of the
`float32` division, which is exact at the witnessed values), a humidity
read stores `raw / 100` with truncating unsigned integer division; in
particular bytes 0xFA 0x00 (little-endian 250) decode to temperature 25
and bytes 0x10 0x27 (little-endian 10000) decode to humidity 100. -/
theorem decoding_little_endian_fields :
    (∀ (b0 b1 : GoByte) (rest : List GoByte),
        parseLittleEndianValue (b0 :: b1 :: rest) = some (b0.val + 256 * b1.val)) ∧
    (∀ (p : Payload) (b0 b1 : GoByte) (rest : List GoByte),
        processCharacteristic p ⟨temperatureUUID, CharRead, some (b0 :: b1 :: rest)⟩ =
          some { p with temperature := some (((b0.val + 256 * b1.val : Nat) : ℚ) / 10) }) ∧
    (∀ (p : Payload) (b0 b1 : GoByte) (rest : List GoByte),
        processCharacteristic p ⟨humidityUUID, CharRead, some (b0 :: b1 :: rest)⟩ =
          some { p with humidity := some ((b0.val + 256 * b1.val) / 100) }) ∧
    processCharacteristic {} ⟨temperatureUUID, CharRead, some [0xFA, 0x00]⟩ =
      some { temperature := some (25 : ℚ) } ∧
    processCharacteristic {} ⟨humidityUUID, CharRead, some [0x10, 0x27]⟩ =
      some { humidity := some 100 } := by
  have hne : ¬ (humidityUUID = temperatureUUID) := by decide
  refine ⟨parseLittleEndianValue_cons, ?_, ?_, ?_, ?_⟩
  · intro p b0 b1 rest
    simp [processCharacteristic, CharRead, parseLittleEndianValue_cons]
  · intro p b0 b1 rest
    simp [processCharacteristic, CharRead, parseLittleEndianValue_cons, hne]
  · have h250 : parseLittleEndianValue [(0xFA : GoByte), 0x00] = some 250 := by decide
    simp only [processCharacteristic, h250]
    norm_num [CharRead]
  · decide

/-- C6: `chkErr` treats scan termination by deadline or cancellation as a
normal outcome — the cycle behaves exactly as if the scan ended without
error — while any other non-nil termination cause is `log.Fatalf`,
aborting the cycle (given the registry loaded and was non-empty, so the
cycle reaches the scan at all). -/
theorem scan_termination_classification :
    (∀ w : World,
        runCycle { w with scanTermination := ScanTermination.deadlineExceeded } =
          runCycle { w with scanTermination := ScanTermination.success } ∧
        runCycle { w with scanTermination := ScanTermination.canceled } =
          runCycle { w with scanTermination := ScanTermination.success }) ∧
    (∀ (w : World) (msg : GoStr) (reg : GoMap sensorInfo),
        loadKnownSensors w.sections = .ok reg → reg.length ≠ 0 →
        runCycle { w with scanTermination := ScanTermination.other msg } = .fatal msg) := by
  constructor
  · intro w
    obtain ⟨sec, ads, st, envs, mok⟩ := w
    constructor <;> rfl
  · intro w msg reg hload hlen
    obtain ⟨sec, ads, st, envs, mok⟩ := w
    dsimp only at hload ⊢
    unfold runCycle
    rw [hload]
    dsimp only
    rw [if_neg hlen]
    rfl

/-- Valid ini section fixture (MAC-address section name). -/
def secValid : IniSection :=
  ⟨goStr "a4:c1:38:0c:5b:45",
    [(goStr "sensorname", goStr "desk"), (goStr "topic", goStr "temperature/room")]⟩

/-- Registry produced from `secValid`. -/
def regValid : GoMap sensorInfo :=
  [(goStr "a4:c1:38:0c:5b:45", ⟨goStr "desk", goStr "temperature/room"⟩)]

/-- World fixture with one valid configured sensor. -/
def worldValid : World :=
  ⟨[secValid], [], ScanTermination.success, fun _ => envNoServices, true⟩

/-- C6 witness: the fatal branch of the classification applied to the
concrete world whose scan terminates for a cause other than
deadline/cancellation. -/
theorem scan_termination_classification_witness :
    loadKnownSensors worldValid.sections = .ok regValid ∧
    regValid.length ≠ 0 ∧
    runCycle { worldValid with scanTermination := ScanTermination.other (goStr "hci error") } =
      .fatal (goStr "hci error") :=
  ⟨by decide, by decide,
    scan_termination_classification.2 worldValid (goStr "hci error") regValid
      (by decide) (by decide)⟩

/-- C8: matching is order-independent — for every registry and every two
permutations of the same finite advertisement sequence, the final matched
map agrees on every key (same keys matched, same sensor info recorded):
each advertisement writes a key determined by itself and the registry, and
the value written is always the registry's entry for that key. -/
theorem matching_order_independent (reg : GoMap sensorInfo)
    (ads1 ads2 : List Advertisement) (h : ads1.Perm ads2) (k : GoStr) :
    mapLookup (scanAdvertisements reg ads1) k =
      mapLookup (scanAdvertisements reg ads2) k := by
  unfold scanAdvertisements
  rw [mapLookup_scan_foldl, mapLookup_scan_foldl, perm_any_eq h]

/-- Advertisement fixture matched by (lower-cased) address. -/
def adFirst : Advertisement := ⟨goStr "AA:BB:CC:DD:EE:01", goStr "ATC_0C5B45"⟩

/-- Advertisement fixture matched by address, different device. -/
def adSecond : Advertisement := ⟨addr2, goStr "nothing"⟩

/-- C8 witness: the theorem applied to a concrete two-advertisement swap. -/
theorem matching_order_independent_witness :
    [adFirst, adSecond].Perm [adSecond, adFirst] ∧
    mapLookup (scanAdvertisements regTwo [adFirst, adSecond]) addr1 =
      mapLookup (scanAdvertisements regTwo [adSecond, adFirst]) addr1 :=
  ⟨List.Perm.swap adSecond adFirst [],
    matching_order_independent regTwo [adFirst, adSecond] [adSecond, adFirst]
      (List.Perm.swap adSecond adFirst []) addr1⟩

/-- C9: every key of a registry built by `loadKnownSensors` is lower-cased
at load time (relay.go:101), while the scan callback looks the local name
up without normalization (relay.go:148); a local name matching the ATC
pattern `ATC_[0-9A-Z]+` contains the upper-case letter A (code point 65),
so the name-based lookup can never succeed — such a device can be matched
only through its address. -/
theorem atc_local_name_lookup_always_misses (sections : List IniSection)
    (reg : GoMap sensorInfo) (name : GoStr)
    (hload : loadKnownSensors sections = .ok reg)
    (hname : atcMatchString name = true) :
    mapLookup reg name = none := by
  cases h : mapLookup reg name with
  | none => rfl
  | some info =>
    exfalso
    have hmem : name ∈ mapKeys reg :=
      (mapLookup_isSome_iff_mem reg name).mp (by simp [h])
    have hupper := loadKnownSensorsAux_keys_no_upper sections [] reg
      (by simp [mapKeys]) hload name hmem
    have hA : (65 : Nat) ∈ name := atcMatchString_mem name hname
    exact hupper 65 hA ⟨le_refl 65, by omega⟩

/-- Ini section fixture whose section name is an ATC firmware name. -/
def atcSections : List IniSection :=
  [⟨goStr "ATC_0C5B45",
    [(goStr "sensorname", goStr "desk"), (goStr "topic", goStr "temperature/room")]⟩]

/-- Registry produced from `atcSections`: the key is lower-cased. -/
def atcReg : GoMap sensorInfo :=
  [(goStr "atc_0c5b45", ⟨goStr "desk", goStr "temperature/room"⟩)]

/-- C9 witness: the configured ATC device's own advertised name misses the
registry built from its configuration. -/
theorem atc_local_name_lookup_always_misses_witness :
    loadKnownSensors atcSections = .ok atcReg ∧
    atcMatchString (goStr "ATC_0C5B45") = true ∧
    mapLookup atcReg (goStr "ATC_0C5B45") = none :=
  ⟨by decide, by decide,
    atc_local_name_lookup_always_misses atcSections atcReg (goStr "ATC_0C5B45")
      (by decide) (by decide)⟩

/-- C10: `parseLittleEndianValue` unconditionally indexes the first two
bytes: on a slice of length at least two it returns the little-endian
16-bit value `b[0] + 256*b[1]` (always below 65536), and on a slice
shorter than two bytes it panics (modelled as `none`); the caller passes
the raw read result with no length check, so a temperature characteristic
read that returns fewer than two bytes makes `processCharacteristic`
panic, which propagates out of `getDeviceData` and crashes the poll (and
the process). -/
theorem short_read_panics :
    (∀ (b0 b1 : GoByte) (rest : List GoByte),
        parseLittleEndianValue (b0 :: b1 :: rest) = some (b0.val + 256 * b1.val) ∧
        b0.val + 256 * b1.val < 65536) ∧
    (∀ b : List GoByte, b.length < 2 → parseLittleEndianValue b = none) ∧
    (∀ (p : Payload) (b : List GoByte), b.length < 2 →
        processCharacteristic p ⟨temperatureUUID, CharRead, some b⟩ = none) ∧
    (∀ (env : DeviceEnv) (info : sensorInfo) (b : List GoByte)
        (rest : List BleCharacteristic),
        env.connectResult = .ok () →
        env.discoverResult =
          .ok [⟨environmentUUID, ⟨temperatureUUID, CharRead, some b⟩ :: rest⟩] →
        b.length < 2 →
        (getDeviceData env info).2 = .panicked) := by
  refine ⟨?_, parseLittleEndianValue_short, processCharacteristic_short, ?_⟩
  · intro b0 b1 rest
    refine ⟨parseLittleEndianValue_cons b0 b1 rest, ?_⟩
    have h0 := b0.isLt
    have h1 := b1.isLt
    omega
  · intro env info b rest hconn hdisc hb
    unfold getDeviceData
    rw [hconn, hdisc]
    dsimp only
    rw [readCharacteristics_short env.nowMs b rest hb]

/-- C10 witness: a one-byte read crashes the decode, and a device whose
temperature characteristic returns one byte makes the poll panic. -/
theorem short_read_panics_witness :
    parseLittleEndianValue [(3 : GoByte)] = none ∧
    (getDeviceData
        ⟨.ok (), addr1,
          .ok [⟨environmentUUID, [⟨temperatureUUID, CharRead, some [(3 : GoByte)]⟩]⟩], 0⟩
        infoDesk).2 = .panicked :=
  ⟨short_read_panics.2.1 [(3 : GoByte)] (by decide),
    short_read_panics.2.2.2
      ⟨.ok (), addr1,
        .ok [⟨environmentUUID, [⟨temperatureUUID, CharRead, some [(3 : GoByte)]⟩]⟩], 0⟩
      infoDesk [(3 : GoByte)] [] rfl rfl (by decide)⟩
